import Mathlib

/-!
Verification of the skn-bpmn repository against its specification.

The repository is a thin orchestration layer around the Sankhya ERP API and
the pm4py process-mining library.  We shallowly embed its own logic:

* `sankhya_api_data_collector.py`:
  - `authenticate`, `execute_query`, `collect_process_events` are modelled as
    pure functions of the (already received) HTTP outcome, since the network
    round-trip itself is external;
  - `preprocess_data` is modelled on lists of event rows.  A dataframe is a
    list of rows; the eleven columns produced by the collector's SQL query
    become the fields of `RawEvent`.  Cell values for the case and activity
    columns are modelled as strings (the code casts them with `astype(str)`,
    so on string-valued input the cast is the identity); timestamps are
    modelled as integer epoch seconds, so the `total_seconds` of a timestamp
    difference is integer subtraction.
* `app_sankhya_integrated.py`:
  - the Flask route table, `generate_sankhya_suggestions`, the fitness
    aggregates of `/api/analyze-sankhya`, and the GET branch of
    `/api/sankhya-config`.

Floating-point means and fitness scores are modelled with exact rationals.
-/

/-- A raw event row as produced by `collect_process_events`: one field per
column selected by the SQL query over `VW_PROCESS_MINING_EVENTS`. -/
structure RawEvent where
  case_id : String
  activity : String
  timestamp : Int
  company_code : String
  partner_code : String
  seller_code : String
  order_value : Int
  operation_type : String
  resource : String
  estimated_duration_minutes : Int
  process_category : String
deriving DecidableEq, Repr

/-- A processed event row as produced by `preprocess_data`.  The four renamed
columns `case:concept:name`, `concept:name`, `time:timestamp`, `org:resource`
become the fields `case_concept_name`, `concept_name`, `time_timestamp`,
`org_resource` (Lean field names cannot contain a colon); the remaining
original columns keep their names, and the two derived columns
`duration_seconds` and `activity_sequence` are appended. -/
structure ProcEvent where
  case_concept_name : String
  concept_name : String
  time_timestamp : Int
  company_code : String
  partner_code : String
  seller_code : String
  order_value : Int
  operation_type : String
  org_resource : String
  estimated_duration_minutes : Int
  process_category : String
  duration_seconds : Int
  activity_sequence : Nat
deriving DecidableEq, Repr

/-- Projection of a processed row back to its pre-existing columns (undoing
the rename and dropping the two derived columns). -/
def toRawEvent (e : ProcEvent) : RawEvent :=
  { case_id := e.case_concept_name
    activity := e.concept_name
    timestamp := e.time_timestamp
    company_code := e.company_code
    partner_code := e.partner_code
    seller_code := e.seller_code
    order_value := e.order_value
    operation_type := e.operation_type
    resource := e.org_resource
    estimated_duration_minutes := e.estimated_duration_minutes
    process_category := e.process_category }

/-- The sort key order used by
`df_processed.sort_values(['case:concept:name', 'time:timestamp'])`:
lexicographic on (case identifier, timestamp). -/
def eventLe (a b : RawEvent) : Prop :=
  a.case_id < b.case_id ∨ (a.case_id = b.case_id ∧ a.timestamp ≤ b.timestamp)

/-- The same order on processed rows (column names renamed). -/
def procLe (a b : ProcEvent) : Prop :=
  a.case_concept_name < b.case_concept_name ∨
    (a.case_concept_name = b.case_concept_name ∧ a.time_timestamp ≤ b.time_timestamp)

instance : DecidableRel eventLe := fun a b => by
  unfold eventLe; infer_instance

instance : DecidableRel procLe := fun a b => by
  unfold procLe; infer_instance

instance : IsTotal RawEvent eventLe where
  total a b := by
    rcases lt_trichotomy a.case_id b.case_id with h | h | h
    · exact Or.inl (Or.inl h)
    · rcases le_total a.timestamp b.timestamp with ht | ht
      · exact Or.inl (Or.inr ⟨h, ht⟩)
      · exact Or.inr (Or.inr ⟨h.symm, ht⟩)
    · exact Or.inr (Or.inl h)

instance : IsTrans RawEvent eventLe where
  trans a b c hab hbc := by
    rcases hab with h1 | ⟨h1, h1t⟩
    · rcases hbc with h2 | ⟨h2, h2t⟩
      · exact Or.inl (h1.trans h2)
      · exact Or.inl (h2 ▸ h1)
    · rcases hbc with h2 | ⟨h2, h2t⟩
      · exact Or.inl (h1 ▸ h2)
      · exact Or.inr ⟨h1.trans h2, h1t.trans h2t⟩

/-- Builds the processed row for a raw row `e`, given the derived column
values (`duration_seconds` and `activity_sequence`): the rename
`case_id ↦ case:concept:name`, `activity ↦ concept:name`,
`timestamp ↦ time:timestamp`, `resource ↦ org:resource` applied by
`preprocess_data`, with the two new columns appended. -/
def renameEvent (e : RawEvent) (dur : Int) (seq : Nat) : ProcEvent :=
  { case_concept_name := e.case_id
    concept_name := e.activity
    time_timestamp := e.timestamp
    company_code := e.company_code
    partner_code := e.partner_code
    seller_code := e.seller_code
    order_value := e.order_value
    operation_type := e.operation_type
    org_resource := e.resource
    estimated_duration_minutes := e.estimated_duration_minutes
    process_category := e.process_category
    duration_seconds := dur
    activity_sequence := seq }

/-- The `duration_seconds` value of a row, given the reversed list `acc` of
the rows preceding it in dataframe order:
`groupby('case:concept:name')['time:timestamp'].diff()` subtracts the
timestamp of the nearest preceding row of the same case (`find?` on the
reversed prefix), and `.fillna(0)` turns the group's first row into 0. -/
def durOf (acc : List RawEvent) (e : RawEvent) : Int :=
  match acc.find? (fun p => p.case_id == e.case_id) with
  | some p => e.timestamp - p.timestamp
  | none => 0

/-- The `activity_sequence` value of a row:
`groupby('case:concept:name').cumcount() + 1` counts the rows of the same
case preceding it in dataframe order, plus one. -/
def seqOf (acc : List RawEvent) (e : RawEvent) : Nat :=
  (acc.filter (fun p => p.case_id == e.case_id)).length + 1

/-- The two derived columns of `preprocess_data`, computed row by row over
the sorted dataframe; `acc` is the reversed list of rows already emitted. -/
def addDerivedColumns (acc : List RawEvent) : List RawEvent → List ProcEvent
  | [] => []
  | e :: rest =>
      renameEvent e (durOf acc e) (seqOf acc e) :: addDerivedColumns (e :: acc) rest

/-- `SankhyaAPIDataCollector.preprocess_data`: renames the four columns to the
PM4Py standard, casts case and activity to strings (the identity on this
string-valued model), sorts by case identifier then timestamp, and appends the
`duration_seconds` and `activity_sequence` columns.  On an empty dataframe the
code returns it unchanged, which on lists is again the empty list. -/
def preprocess_data (df : List RawEvent) : List ProcEvent :=
  addDerivedColumns [] (List.insertionSort eventLe df)

theorem map_toRawEvent_addDerivedColumns (acc l : List RawEvent) :
    (addDerivedColumns acc l).map toRawEvent = l := by
  induction l generalizing acc with
  | nil => rfl
  | cons e rest ih =>
      simp only [addDerivedColumns, List.map_cons, ih]
      rfl

theorem preprocess_data_perm (df : List RawEvent) :
    ((preprocess_data df).map toRawEvent).Perm df := by
  unfold preprocess_data
  rw [map_toRawEvent_addDerivedColumns]
  exact List.perm_insertionSort eventLe df

theorem preprocess_data_sorted_helper (df : List RawEvent) :
    List.Sorted procLe (preprocess_data df) := by
  have h2 : List.Sorted eventLe ((preprocess_data df).map toRawEvent) := by
    unfold preprocess_data
    rw [map_toRawEvent_addDerivedColumns]
    exact List.sorted_insertionSort eventLe df
  rw [List.Sorted, List.pairwise_map] at h2
  exact h2

/-- C1: on a non-empty input, `preprocess_data` renames `case_id`, `activity`,
`timestamp`, `resource` to the PM4Py column names, casts case and activity to
strings (identity here), and returns the rows sorted by case identifier and
then by timestamp within each case: the output is sorted under `procLe` and,
with the rename undone, is a permutation of the input rows. -/
theorem preprocess_data_renames_casts_sorts (df : List RawEvent) (h : df ≠ []) :
    List.Sorted procLe (preprocess_data df) ∧
      ((preprocess_data df).map toRawEvent).Perm df :=
  ⟨preprocess_data_sorted_helper df, preprocess_data_perm df⟩

def sampleRaw1 : RawEvent :=
  { case_id := "B", activity := "inicio", timestamp := 100, company_code := "1"
    partner_code := "7", seller_code := "3", order_value := 10
    operation_type := "V", resource := "r1", estimated_duration_minutes := 5
    process_category := "Vendas" }

def sampleRaw2 : RawEvent :=
  { sampleRaw1 with case_id := "A", activity := "inicio", timestamp := 250 }

def sampleRaw3 : RawEvent :=
  { sampleRaw1 with case_id := "A", activity := "fim", timestamp := 310, resource := "r2" }

def sampleDf : List RawEvent := [sampleRaw1, sampleRaw2, sampleRaw3]

theorem preprocess_data_renames_casts_sorts_witness :
    sampleDf ≠ [] ∧
      (List.Sorted procLe (preprocess_data sampleDf) ∧
        ((preprocess_data sampleDf).map toRawEvent).Perm sampleDf) :=
  ⟨by decide, preprocess_data_renames_casts_sorts sampleDf (by decide)⟩

theorem addDerivedColumns_duration (acc l : List RawEvent) (c : String) :
    (∀ x, ((addDerivedColumns acc l).filter
            (fun e => e.case_concept_name == c)).head? = some x →
        x.duration_seconds =
          (match acc.find? (fun p => p.case_id == c) with
            | some p => x.time_timestamp - p.timestamp
            | none => 0)) ∧
      List.Chain' (fun a b => b.duration_seconds = b.time_timestamp - a.time_timestamp)
        ((addDerivedColumns acc l).filter (fun e => e.case_concept_name == c)) := by
  induction l generalizing acc with
  | nil =>
      refine ⟨fun x hx => by simp [addDerivedColumns] at hx, ?_⟩
      simp [addDerivedColumns]
  | cons e rest ih =>
      rw [addDerivedColumns]
      by_cases hc : e.case_id = c
      · subst hc
        have hkeep : ((renameEvent e (durOf acc e) (seqOf acc e)).case_concept_name
            == e.case_id) = true := by
          simp [renameEvent]
        rw [List.filter_cons, if_pos hkeep]
        constructor
        · intro x hx
          rw [List.head?_cons, Option.some_inj] at hx
          subst hx
          rfl
        · rw [List.chain'_cons']
          refine ⟨?_, (ih (e :: acc)).2⟩
          intro y hy
          have h1 := (ih (e :: acc)).1 y (Option.mem_def.mp hy)
          have hfind : (e :: acc).find? (fun p => p.case_id == e.case_id) = some e :=
            List.find?_cons_of_pos _ (by simp)
          rw [hfind] at h1
          exact h1
      · have hdrop : ¬ (((renameEvent e (durOf acc e) (seqOf acc e)).case_concept_name
            == c) = true) := by
          simp [renameEvent, hc]
        rw [List.filter_cons, if_neg hdrop]
        have hskip : (e :: acc).find? (fun p => p.case_id == c) =
            acc.find? (fun p => p.case_id == c) :=
          List.find?_cons_of_neg _ (by simp [hc])
        refine ⟨fun x hx => ?_, (ih (e :: acc)).2⟩
        have h1 := (ih (e :: acc)).1 x hx
        rw [hskip] at h1
        exact h1

/-- C2: in the output of `preprocess_data` on a non-empty input, within each
case (taken in the sorted order) the first event has `duration_seconds` 0 and
every later event's `duration_seconds` is the difference between its timestamp
and the timestamp of the immediately preceding event of the same case. -/
theorem preprocess_data_duration_seconds (df : List RawEvent) (h : df ≠ []) (c : String) :
    (∀ x, ((preprocess_data df).filter
          (fun e => e.case_concept_name == c)).head? = some x →
        x.duration_seconds = 0) ∧
      List.Chain' (fun a b => b.duration_seconds = b.time_timestamp - a.time_timestamp)
        ((preprocess_data df).filter (fun e => e.case_concept_name == c)) := by
  have h1 := addDerivedColumns_duration [] (List.insertionSort eventLe df) c
  unfold preprocess_data
  refine ⟨fun x hx => ?_, h1.2⟩
  have h2 := h1.1 x hx
  simpa using h2

theorem preprocess_data_duration_seconds_witness :
    sampleDf ≠ [] ∧
      List.Chain' (fun a b => b.duration_seconds = b.time_timestamp - a.time_timestamp)
        ((preprocess_data sampleDf).filter (fun e => e.case_concept_name == "A")) :=
  ⟨by decide, (preprocess_data_duration_seconds sampleDf (by decide) "A").2⟩

theorem addDerivedColumns_seq (acc l : List RawEvent) (c : String) :
    ((addDerivedColumns acc l).filter (fun e => e.case_concept_name == c)).map
        (fun e => e.activity_sequence) =
      List.range' ((acc.filter (fun p => p.case_id == c)).length + 1)
        (l.countP (fun e => e.case_id == c)) := by
  induction l generalizing acc with
  | nil => simp [addDerivedColumns]
  | cons e rest ih =>
      rw [addDerivedColumns]
      by_cases hc : e.case_id = c
      · subst hc
        have hkeep : ((renameEvent e (durOf acc e) (seqOf acc e)).case_concept_name
            == e.case_id) = true := by
          simp [renameEvent]
        rw [List.filter_cons, if_pos hkeep, List.map_cons, ih (e :: acc)]
        have hcnt : (e :: rest).countP (fun p => p.case_id == e.case_id) =
            rest.countP (fun p => p.case_id == e.case_id) + 1 :=
          List.countP_cons_of_pos _ _ (by simp)
        have hfl : ((e :: acc).filter (fun p => p.case_id == e.case_id)).length =
            (acc.filter (fun p => p.case_id == e.case_id)).length + 1 := by
          rw [List.filter_cons, if_pos (by simp)]
          rfl
        rw [hcnt, hfl, List.range'_succ]
        rfl
      · have hdrop : ¬ (((renameEvent e (durOf acc e) (seqOf acc e)).case_concept_name
            == c) = true) := by
          simp [renameEvent, hc]
        rw [List.filter_cons, if_neg hdrop, ih (e :: acc)]
        have hcnt : (e :: rest).countP (fun p => p.case_id == c) =
            rest.countP (fun p => p.case_id == c) :=
          List.countP_cons_of_neg _ _ (by simp [hc])
        have hfl : ((e :: acc).filter (fun p => p.case_id == c)).length =
            (acc.filter (fun p => p.case_id == c)).length := by
          rw [List.filter_cons, if_neg (by simp [hc])]
        rw [hcnt, hfl]

/-- C3: in the output of `preprocess_data` on a non-empty input, the
`activity_sequence` values of the events of each case, taken in the sorted
order, are exactly `1, 2, ..., n` where `n` is the number of events of that
case. -/
theorem preprocess_data_activity_sequence (df : List RawEvent) (h : df ≠ []) (c : String) :
    ((preprocess_data df).filter (fun e => e.case_concept_name == c)).map
        (fun e => e.activity_sequence) =
      List.range' 1
        (((preprocess_data df).filter (fun e => e.case_concept_name == c)).length) := by
  have h1 := addDerivedColumns_seq [] (List.insertionSort eventLe df) c
  unfold preprocess_data
  have h2 : ((addDerivedColumns [] (List.insertionSort eventLe df)).filter
      (fun e => e.case_concept_name == c)).length =
      (List.insertionSort eventLe df).countP (fun p => p.case_id == c) := by
    conv_rhs => rw [← map_toRawEvent_addDerivedColumns [] (List.insertionSort eventLe df)]
    rw [List.countP_map, ← List.countP_eq_length_filter]
    rfl
  rw [h2]
  simpa using h1

theorem preprocess_data_activity_sequence_witness :
    ((preprocess_data sampleDf).filter (fun e => e.case_concept_name == "A")).map
        (fun e => e.activity_sequence) =
      List.range' 1
        (((preprocess_data sampleDf).filter (fun e => e.case_concept_name == "A")).length) :=
  preprocess_data_activity_sequence sampleDf (by decide) "A"

/-- C10: on a non-empty input, `preprocess_data` preserves the multiset of
rows: undoing the rename and dropping the two added columns
(`duration_seconds`, `activity_sequence`) yields a permutation of the input,
so the output has the same number of rows and every value of every
pre-existing column is unchanged. -/
theorem preprocess_data_preserves_rows (df : List RawEvent) (h : df ≠ []) :
    ((preprocess_data df).map toRawEvent).Perm df ∧
      (preprocess_data df).length = df.length := by
  refine ⟨preprocess_data_perm df, ?_⟩
  have h2 := (preprocess_data_perm df).length_eq
  simpa using h2

theorem preprocess_data_preserves_rows_witness :
    sampleDf ≠ [] ∧
      (((preprocess_data sampleDf).map toRawEvent).Perm sampleDf ∧
        (preprocess_data sampleDf).length = sampleDf.length) :=
  ⟨by decide, preprocess_data_preserves_rows sampleDf (by decide)⟩

/-- The collector state relevant to authentication
(`SankhyaAPIDataCollector.__init__`). -/
structure Collector where
  base_url : String
  app_key : String
  sankhya_id : String
  password : String
  token : Option String
  session_id : Option String
deriving DecidableEq, Repr

/-- The `responseBody` object of a login response; the code reads only its
`jsessionid` key (`none` when the key is absent). -/
structure LoginResponseBody where
  jsessionid : Option String
deriving DecidableEq, Repr

/-- The parsed JSON object of a login response: the code reads `status`
(`none` when absent or not a string, which compares unequal to "1" as in
Python), `statusMessage` (only logged) and `responseBody`. -/
structure LoginResult where
  status : Option String
  statusMessage : Option String
  responseBody : Option LoginResponseBody
deriving DecidableEq, Repr

/-- The outcome of the HTTP login request as observed by `authenticate`:
either some exception was raised (`requests.post` failing), or a response
arrived with an HTTP status code and a JSON body (`none` for a 200 body that
`response.json()` cannot parse, which also raises). -/
inductive LoginOutcome
  | raised
  | response (statusCode : Nat) (body : Option LoginResult)
deriving DecidableEq, Repr

/-- `SankhyaAPIDataCollector.authenticate` as a function of the HTTP outcome:
returns whether authentication succeeded together with the updated collector
(storing `responseBody.jsessionid` as `session_id` on success).  Every
exception path is caught and yields `false` with the state unchanged. -/
def authenticate (col : Collector) (out : LoginOutcome) : Bool × Collector :=
  match out with
  | .raised => (false, col)
  | .response statusCode body =>
      if statusCode = 200 then
        match body with
        | none => (false, col)
        | some result =>
            if result.status = some "1" then
              (true, { col with session_id :=
                  match result.responseBody with
                  | some rb => rb.jsessionid
                  | none => none })
            else (false, col)
      else (false, col)

/-- C4: `authenticate` returns `True` exactly on an HTTP 200 response whose
JSON body has `status` equal to the string "1"; in that case it stores the
body's `jsessionid` as the collector's session id; on any other HTTP status,
any other status value, or a raised exception it returns `False` without
propagating the exception (the model is a total function). -/
theorem authenticate_spec (col : Collector) (out : LoginOutcome) :
    ((authenticate col out).1 = true ↔
        ∃ result, out = .response 200 (some result) ∧ result.status = some "1") ∧
      (∀ result, out = .response 200 (some result) → result.status = some "1" →
        (authenticate col out).2.session_id =
          (match result.responseBody with
            | some rb => rb.jsessionid
            | none => none)) := by
  cases out with
  | raised => simp [authenticate]
  | response s body =>
      by_cases hs : s = 200
      · subst hs
        cases body with
        | none => simp [authenticate]
        | some result =>
            by_cases hst : result.status = some "1"
            · constructor
              · simp only [authenticate, if_pos rfl, if_pos hst]
                exact ⟨fun _ => ⟨result, rfl, hst⟩, fun _ => rfl⟩
              · intro r hr hr1
                have : r = result := by
                  injection hr with h1 h2
                  exact (Option.some_inj.mp h2).symm
                subst this
                simp [authenticate, hst]
            · constructor
              · simp only [authenticate, if_pos rfl, if_neg hst]
                constructor
                · intro hfalse
                  exact absurd hfalse (by simp)
                · rintro ⟨r, hr, hr1⟩
                  injection hr with h1 h2
                  exact absurd ((Option.some_inj.mp h2) ▸ hr1) hst
              · intro r hr hr1
                injection hr with h1 h2
                exact absurd ((Option.some_inj.mp h2) ▸ hr1) hst
      · constructor
        · simp only [authenticate, if_neg hs]
          constructor
          · intro hfalse
            exact absurd hfalse (by simp)
          · rintro ⟨r, hr, hr1⟩
            injection hr with h1 h2
            exact absurd h1 hs
        · intro r hr hr1
          injection hr with h1 h2
          exact absurd h1 hs

def sampleCollector : Collector :=
  { base_url := "https://api.sankhya.com.br", app_key := "k"
    sankhya_id := "user@empresa.com", password := "p", token := none
    session_id := none }

def sampleLoginOutcome : LoginOutcome :=
  .response 200 (some { status := some "1", statusMessage := none
                        responseBody := some { jsessionid := some "J123" } })

theorem authenticate_spec_witness :
    (authenticate sampleCollector sampleLoginOutcome).1 = true ∧
      (authenticate sampleCollector sampleLoginOutcome).2.session_id = some "J123" :=
  ⟨(authenticate_spec sampleCollector sampleLoginOutcome).1.mpr ⟨_, rfl, rfl⟩,
    (authenticate_spec sampleCollector sampleLoginOutcome).2 _ rfl rfl⟩

inductive HttpMethod
  | get
  | post
deriving DecidableEq, Repr

/-- What a route handler produces: the root route renders an HTML template,
every `/api/...` handler returns a `jsonify(...)` body. -/
inductive RouteKind
  | htmlPage
  | jsonApi
deriving DecidableEq, Repr

structure Route where
  path : String
  methods : List HttpMethod
  kind : RouteKind
deriving DecidableEq, Repr

/-- The route table of `app_sankhya_integrated.py`, one entry per
`@app.route` decorator in source order.  `/` renders
`index_sankhya.html`; the other four handlers return JSON.  A decorator
without a `methods` argument defaults to GET. -/
def appRoutes : List Route :=
  [ { path := "/", methods := [.get], kind := .htmlPage }
  , { path := "/api/test-connection", methods := [.post], kind := .jsonApi }
  , { path := "/api/analyze-sankhya", methods := [.post], kind := .jsonApi }
  , { path := "/api/sankhya-config", methods := [.get, .post], kind := .jsonApi }
  , { path := "/api/database-setup", methods := [.get], kind := .jsonApi } ]

/-- C6: the application exposes exactly four JSON API endpoints
(`/api/test-connection`, `/api/analyze-sankhya`, `/api/sankhya-config`,
`/api/database-setup`) plus a single root route `/` serving an HTML page,
and no other routes. -/
theorem appRoutes_spec :
    (appRoutes.filter (fun r => decide (r.kind = RouteKind.jsonApi))).map
        (fun r => r.path) =
      ["/api/test-connection", "/api/analyze-sankhya", "/api/sankhya-config",
        "/api/database-setup"] ∧
      (appRoutes.filter (fun r => decide (r.kind = RouteKind.htmlPage))).map
          (fun r => r.path) = ["/"] ∧
      appRoutes.length = 5 := by
  decide

/-- One aligned trace as returned by pm4py's alignment-based conformance
checking; the only key the code reads is `fitness`, modelled as an exact
rational. -/
structure AlignedTrace where
  fitness : ℚ
deriving DecidableEq, Repr

/-- The `fitness_perfect` field of the `/api/analyze-sankhya` response:
the count over `aligned_traces` of traces with fitness equal to 1.0. -/
def fitness_perfect (aligned : List AlignedTrace) : Nat :=
  (aligned.filter (fun t => decide (t.fitness = 1))).length

/-- The `fitness_average` field of the `/api/analyze-sankhya` response:
the sum of the fitness values divided by the number of traces when the list
is non-empty, and 0 otherwise (the conditional expression guards the
division). -/
def fitness_average (aligned : List AlignedTrace) : ℚ :=
  if aligned.isEmpty then 0
  else (aligned.map (fun t => t.fitness)).sum / (aligned.length : ℚ)

/-- C8: `fitness_perfect` equals the number of aligned traces whose fitness
equals 1.0, and `fitness_average` equals the arithmetic mean of the fitness
values (characterised by average times count equals sum) on a non-empty
list, and 0 on an empty list, so the division is never performed on an empty
list. -/
theorem analyze_fitness_fields (aligned : List AlignedTrace) :
    fitness_perfect aligned = aligned.countP (fun t => decide (t.fitness = 1)) ∧
      (aligned = [] → fitness_average aligned = 0) ∧
      (aligned ≠ [] →
        fitness_average aligned * (aligned.length : ℚ) =
          (aligned.map (fun t => t.fitness)).sum) := by
  refine ⟨(List.countP_eq_length_filter _ _).symm, fun h => by simp [fitness_average, h], ?_⟩
  intro h
  have h0 : aligned.length ≠ 0 := by
    simpa [List.length_eq_zero] using h
  have hlen : (aligned.length : ℚ) ≠ 0 := by
    exact_mod_cast h0
  rw [fitness_average, if_neg (by simpa [List.isEmpty_iff] using h)]
  exact div_mul_cancel₀ _ hlen

def sampleAligned : List AlignedTrace := [{ fitness := 1 }, { fitness := 1/2 }]

theorem analyze_fitness_fields_witness :
    fitness_perfect sampleAligned =
        sampleAligned.countP (fun t => decide (t.fitness = 1)) ∧
      fitness_average sampleAligned * (sampleAligned.length : ℚ) =
        (sampleAligned.map (fun t => t.fitness)).sum :=
  ⟨(analyze_fitness_fields sampleAligned).1,
    (analyze_fitness_fields sampleAligned).2.2 (by decide)⟩

/-- The server's Sankhya configuration dictionary (`SANKHYA_CONFIG`): the
base URL and the four credentials, all strings (environment variables
defaulting to the empty string). -/
structure SankhyaConfig where
  base_url : String
  app_key : String
  sankhya_id : String
  password : String
  token : String
deriving DecidableEq, Repr

/-- The JSON object returned by the GET branch of `/api/sankhya-config`. -/
structure SankhyaConfigView where
  base_url : String
  has_app_key : Bool
  has_sankhya_id : Bool
  has_password : Bool
  has_token : Bool
deriving DecidableEq, Repr

/-- The GET branch of the `/api/sankhya-config` endpoint: returns the base
URL and, for each credential, only its Python truthiness `bool(value)`,
which for strings is non-emptiness. -/
def sankhya_config_get (c : SankhyaConfig) : SankhyaConfigView :=
  { base_url := c.base_url
    has_app_key := c.app_key != ""
    has_sankhya_id := c.sankhya_id != ""
    has_password := c.password != ""
    has_token := c.token != "" }

/-- C9: two server configurations that differ only in the (non-empty) values
of `app_key`, `sankhya_id`, `password` and `token` produce identical
responses from GET `/api/sankhya-config`: each credential is exposed only
through the boolean recording whether it is set, never its value. -/
theorem sankhya_config_get_noninterference (c1 c2 : SankhyaConfig)
    (hurl : c1.base_url = c2.base_url)
    (h1 : c1.app_key ≠ "") (h2 : c2.app_key ≠ "")
    (h3 : c1.sankhya_id ≠ "") (h4 : c2.sankhya_id ≠ "")
    (h5 : c1.password ≠ "") (h6 : c2.password ≠ "")
    (h7 : c1.token ≠ "") (h8 : c2.token ≠ "") :
    sankhya_config_get c1 = sankhya_config_get c2 := by
  have e : ∀ (a b : String), a ≠ "" → b ≠ "" → (a != "") = (b != "") := by
    intro a b ha hb
    have ha2 : (a != "") = true := bne_iff_ne.mpr ha
    have hb2 : (b != "") = true := bne_iff_ne.mpr hb
    rw [ha2, hb2]
  unfold sankhya_config_get
  rw [hurl, e _ _ h1 h2, e _ _ h3 h4, e _ _ h5 h6, e _ _ h7 h8]

def sampleConfigA : SankhyaConfig :=
  { base_url := "https://api.sankhya.com.br", app_key := "keyA"
    sankhya_id := "a@empresa.com", password := "pwA", token := "tokA" }

def sampleConfigB : SankhyaConfig :=
  { base_url := "https://api.sankhya.com.br", app_key := "keyB"
    sankhya_id := "b@empresa.com", password := "pwB", token := "tokB" }

theorem sankhya_config_get_noninterference_witness :
    sankhya_config_get sampleConfigA = sankhya_config_get sampleConfigB :=
  sankhya_config_get_noninterference sampleConfigA sampleConfigB rfl
    (by decide) (by decide) (by decide) (by decide)
    (by decide) (by decide) (by decide) (by decide)

/-- A cell value of a query result row: a string, a number, or a parsed
datetime (epoch seconds). -/
inductive Cell
  | str (s : String)
  | num (n : Int)
  | dt (t : Int)
deriving DecidableEq, Repr

/-- The `responseBody` object of a query response, reduced to the two keys
the code reads: `fields` (the column descriptors, reduced to their `name`
values) and `rows`.  `none` models an absent key. -/
structure QueryBody where
  fields : Option (List String)
  rows : Option (List (List Cell))
deriving DecidableEq, Repr

/-- The parsed JSON object of a query response. -/
structure QueryResult where
  status : Option String
  statusMessage : Option String
  responseBody : Option QueryBody
deriving DecidableEq, Repr

/-- The outcome of the HTTP query request as observed by `execute_query`,
analogous to `LoginOutcome`. -/
inductive QueryOutcome
  | raised
  | response (statusCode : Nat) (body : Option QueryResult)
deriving DecidableEq, Repr

/-- `SankhyaAPIDataCollector.execute_query` as a function of the HTTP
outcome: on a 200 response with status "1" it returns the response's
`responseBody` (`result.get("responseBody", {})`, an empty object when the
key is absent); on any other HTTP status, any other status value, or a
raised exception it returns `None`. -/
def execute_query (out : QueryOutcome) : Option QueryBody :=
  match out with
  | .raised => none
  | .response statusCode body =>
      if statusCode = 200 then
        match body with
        | none => none
        | some result =>
            if result.status = some "1" then
              some (result.responseBody.getD { fields := none, rows := none })
            else none
      else none

/-- The tabular value returned by `collect_process_events`: column names and
rows. -/
structure DataFrame where
  columns : List String
  rows : List (List Cell)
deriving DecidableEq, Repr

/-- `pd.DataFrame()`: the empty dataframe. -/
def emptyDataFrame : DataFrame := { columns := [], rows := [] }

/-- Value of a list of decimal digit characters, `none` on a non-digit. -/
def decDigitsVal (acc : Nat) : List Char → Option Nat
  | [] => some acc
  | c :: rest =>
      if c.isDigit then decDigitsVal (acc * 10 + (c.toNat - 48)) rest else none

/-- Abstraction of `pd.to_datetime` on one cell: numeric and datetime cells
convert; a string cell converts when it is a non-empty decimal epoch-seconds
literal and fails otherwise (in pandas an unparseable value raises). -/
def parseCellTimestamp : Cell → Option Cell
  | .str s =>
      match s.data with
      | [] => none
      | cs => (decDigitsVal 0 cs).map (fun n => Cell.dt (Int.ofNat n))
  | .num n => some (Cell.dt n)
  | .dt t => some (Cell.dt t)


/-- Conversion of the `timestamp` column of one row: the cell at the column's
index is replaced by its parsed datetime; `none` models the raised
exception (a failing parse or a missing cell). -/
def parseRowTimestamp (idx : Nat) (row : List Cell) : Option (List Cell) :=
  match row.get? idx with
  | some cell => (parseCellTimestamp cell).map (fun c => row.set idx c)
  | none => none

/-- Conversion of the `timestamp` column of all rows; `none` when any row
fails. -/
def parseRows (idx : Nat) : List (List Cell) → Option (List (List Cell))
  | [] => some []
  | r :: rs =>
      match parseRowTimestamp idx r, parseRows idx rs with
      | some r2, some rs2 => some (r2 :: rs2)
      | _, _ => none

/-- `SankhyaAPIDataCollector.collect_process_events` as a function of the
HTTP outcome of its query.  When the query succeeds and its result has a
`rows` key, the code builds `pd.DataFrame(rows, columns=field names)`
(pandas raises when a row does not have exactly one value per column),
converts the `timestamp` column with `pd.to_datetime` when present (raising
on an unparseable value), and then logs `df['case_id'].nunique()`, which
raises a `KeyError` when there is no `case_id` column.  Every raised
exception is caught and yields `pd.DataFrame()`, the empty dataframe, as
does a failed query or a result without a `rows` key (an empty
`responseBody` object is falsy and has no `rows` key, the same branch). -/
def collect_process_events (out : QueryOutcome) : DataFrame :=
  match execute_query out with
  | none => emptyDataFrame
  | some body =>
      match body.rows with
      | none => emptyDataFrame
      | some rows =>
          let columns := body.fields.getD []
          if rows.all (fun r => r.length = columns.length) then
            let converted :=
              if "timestamp" ∈ columns then
                (parseRows (columns.indexOf "timestamp") rows).map
                  (fun rs => ({ columns := columns, rows := rs } : DataFrame))
              else some { columns := columns, rows := rows }
            match converted with
            | none => emptyDataFrame
            | some df => if "case_id" ∈ df.columns then df else emptyDataFrame
          else emptyDataFrame

/-- A successful query result whose fields do not include `case_id`. -/
def queryNoCaseId : QueryOutcome :=
  QueryOutcome.response 200 (some
    { status := some "1"
      statusMessage := none
      responseBody := some
        { fields := some ["activity", "timestamp"]
          rows := some [[Cell.str "criacao", Cell.num 100]] } })

/-- C5 counterexample: on a query that succeeds with a `rows` key, the claim
says the returned dataframe's columns are exactly the reported field names;
but when those names do not include `case_id`, the log statement
`df['case_id'].nunique()` raises and the caught exception makes the code
return the empty dataframe instead. -/
theorem collect_process_events_counterexample :
    collect_process_events queryNoCaseId = emptyDataFrame ∧
      (collect_process_events queryNoCaseId).columns ≠ ["activity", "timestamp"] := by
  have h1 : collect_process_events queryNoCaseId = emptyDataFrame := rfl
  refine ⟨h1, ?_⟩
  rw [h1]
  simp [emptyDataFrame]

/-- C5 (amended): `collect_process_events` returns the empty dataframe
whenever the underlying query fails, raises, or its result contains no
`rows` key; otherwise — provided the reported field names include `case_id`,
every row has exactly one value per field, and every value of the
`timestamp` column parses — it returns a dataframe whose columns are exactly
the field names reported by the query result, in order, holding the result's
rows, with the timestamp column parsed to datetimes.  (When one of the
provisos fails, the raised exception is caught and the empty dataframe is
returned, as the counterexample shows.) -/
theorem collect_process_events_amended (out : QueryOutcome) :
    (execute_query out = none → collect_process_events out = emptyDataFrame) ∧
      (∀ body, execute_query out = some body → body.rows = none →
        collect_process_events out = emptyDataFrame) ∧
      (∀ body rows, execute_query out = some body → body.rows = some rows →
        "case_id" ∈ body.fields.getD [] →
        rows.all (fun r => r.length = (body.fields.getD []).length) = true →
        "timestamp" ∉ body.fields.getD [] →
        collect_process_events out =
          { columns := body.fields.getD [], rows := rows }) ∧
      (∀ body rows parsed, execute_query out = some body → body.rows = some rows →
        "case_id" ∈ body.fields.getD [] →
        rows.all (fun r => r.length = (body.fields.getD []).length) = true →
        "timestamp" ∈ body.fields.getD [] →
        parseRows ((body.fields.getD []).indexOf "timestamp") rows = some parsed →
        collect_process_events out =
          { columns := body.fields.getD [], rows := parsed }) := by
  refine ⟨?_, ?_, ?_, ?_⟩
  · intro h
    unfold collect_process_events
    rw [h]
  · intro body h hr
    unfold collect_process_events
    rw [h]
    simp [hr]
  · intro body rows h hr hcase hall hts
    unfold collect_process_events
    rw [h]
    simp [hr, hall, hcase, hts]
  · intro body rows parsed h hr hcase hall hts hmap
    unfold collect_process_events
    rw [h]
    simp [hr, hall, hcase, hts, hmap]

/-- A fully well-formed successful query outcome. -/
def queryOk : QueryOutcome :=
  QueryOutcome.response 200 (some
    { status := some "1"
      statusMessage := none
      responseBody := some
        { fields := some ["case_id", "activity", "timestamp"]
          rows := some [[Cell.str "1", Cell.str "criacao", Cell.str "100"]] } })

theorem collect_process_events_amended_witness :
    collect_process_events queryOk =
      { columns := ["case_id", "activity", "timestamp"]
        rows := [[Cell.str "1", Cell.str "criacao", Cell.dt 100]] } :=
  (collect_process_events_amended queryOk).2.2.2 _ _ _ rfl rfl (by decide)
    (by decide) (by decide) (by decide)

/-- One suggestion emitted by `generate_sankhya_suggestions`.  The code
interpolates the computed statistics into fixed Portuguese sentences; the
model keeps the sentence tag together with the interpolated values, which
determine the string uniquely. -/
inductive Suggestion
  | noData
  | mostFrequentActivity (name : String) (count : Nat)
  | delay (avgDurationSeconds : ℚ)
  | lowConformance (avgFitness : ℚ)
  | highConformance (avgFitness : ℚ)
  | categoryFocus (category : String) (share : ℚ)
  | busiestResource (name : String) (count : Nat)
  | peakHour (hour : Int)
  | defaultMonitoring
  | defaultDashboards
  | defaultGoals
deriving DecidableEq, Repr

/-- The distinct values of `l`, in order of first occurrence. -/
def firstOccurrences (l : List String) : List String :=
  l.foldl (fun a y => if y ∈ a then a else a ++ [y]) []

/-- `pandas.Series.value_counts()`: each distinct value paired with its
number of occurrences, sorted by descending count (ties keeping the
first-occurrence order, the order of a stable descending sort). -/
def valueCounts (l : List String) : List (String × Nat) :=
  List.insertionSort (fun a b => b.2 ≤ a.2)
    ((firstOccurrences l).map (fun v => (v, l.count v)))

/-- The hour-of-day of an epoch-seconds timestamp
(`pd.to_datetime(...).dt.hour`). -/
def hourOf (ts : Int) : Int := (ts / 3600) % 24

/-- `hourly_counts.idxmax()` over the index-sorted hourly counts: the
smallest hour attaining the maximal number of events (for a non-empty
dataframe the absent hours, of count 0, never win). -/
def peakHourOf (df : List ProcEvent) : Int :=
  (List.range 24).foldl
    (fun best h =>
      if (df.filter (fun e => hourOf e.time_timestamp == Int.ofNat h)).length >
          (df.filter (fun e => hourOf e.time_timestamp == best)).length
        then Int.ofNat h else best)
    0

/-- The mean of the `duration_seconds` column (`df['duration_seconds'].mean()`). -/
def avgDurationOf (df : List ProcEvent) : ℚ :=
  (df.map (fun e => (e.duration_seconds : ℚ))).sum / (df.length : ℚ)

/-- The mean fitness of the aligned traces, as computed inside the
`if aligned_traces:` block (no division guard is needed there). -/
def avgFitnessOf (aligned : List AlignedTrace) : ℚ :=
  (aligned.map (fun t => t.fitness)).sum / (aligned.length : ℚ)

/-- The most-frequent-activity suggestion block: fires whenever the activity
`value_counts` is non-empty, for its first (most frequent) entry. -/
def activitySuggestion (df : List ProcEvent) : List Suggestion :=
  match valueCounts (df.map (fun e => e.concept_name)) with
  | [] => []
  | (a, k) :: _ => [Suggestion.mostFrequentActivity a k]

/-- The delay suggestion block: fires when the mean of `duration_seconds`
exceeds 3600 seconds. -/
def delaySuggestion (df : List ProcEvent) : List Suggestion :=
  if avgDurationOf df > 3600 then [Suggestion.delay (avgDurationOf df)] else []

/-- The conformance suggestion block: on a non-empty list of aligned traces,
fires the low-conformance suggestion when the average fitness is below 0.8,
else the high-conformance suggestion when it exceeds 0.95. -/
def conformanceSuggestion (aligned : List AlignedTrace) : List Suggestion :=
  if aligned.isEmpty then []
  else if avgFitnessOf aligned < 8/10 then
    [Suggestion.lowConformance (avgFitnessOf aligned)]
  else if avgFitnessOf aligned > 95/100 then
    [Suggestion.highConformance (avgFitnessOf aligned)]
  else []

/-- The category suggestion block: one suggestion per `value_counts` entry of
`process_category` whose count exceeds half the number of events. -/
def categorySuggestions (df : List ProcEvent) : List Suggestion :=
  (valueCounts (df.map (fun e => e.process_category))).filterMap
    (fun ck =>
      if (ck.2 : ℚ) > (df.length : ℚ) * (1/2) then
        some (Suggestion.categoryFocus ck.1 ((ck.2 : ℚ) / (df.length : ℚ)))
      else none)

/-- The busiest-resource suggestion block: fires whenever the resource
`value_counts` is non-empty, for its first entry. -/
def resourceSuggestion (df : List ProcEvent) : List Suggestion :=
  match valueCounts (df.map (fun e => e.org_resource)) with
  | [] => []
  | (rname, k) :: _ => [Suggestion.busiestResource rname k]

/-- The peak-hour suggestion block: always fires (the `time:timestamp`
column is present in every processed dataframe). -/
def peakHourSuggestion (df : List ProcEvent) : List Suggestion :=
  [Suggestion.peakHour (peakHourOf df)]

/-- `generate_sankhya_suggestions` over the processed dataframe and the
aligned traces.  The input rows always carry the columns the code tests for
(every `preprocess_data` output has them), so the column-presence tests are
all true.  The blocks append in source order; the three fixed defaults
replace an empty list; the enclosing try/except never fires in this total
model. -/
def generate_sankhya_suggestions (df : List ProcEvent)
    (aligned : List AlignedTrace) : List Suggestion :=
  if df.isEmpty then [Suggestion.noData]
  else
    let all := activitySuggestion df ++ delaySuggestion df ++
      conformanceSuggestion aligned ++ categorySuggestions df ++
      resourceSuggestion df ++ peakHourSuggestion df
    if all.isEmpty then
      [Suggestion.defaultMonitoring, Suggestion.defaultDashboards,
        Suggestion.defaultGoals]
    else all

theorem generate_eq_blocks (df : List ProcEvent) (aligned : List AlignedTrace)
    (h : df ≠ []) :
    generate_sankhya_suggestions df aligned =
      activitySuggestion df ++ delaySuggestion df ++
        conformanceSuggestion aligned ++ categorySuggestions df ++
        resourceSuggestion df ++ peakHourSuggestion df := by
  have hne : activitySuggestion df ++ delaySuggestion df ++
      conformanceSuggestion aligned ++ categorySuggestions df ++
      resourceSuggestion df ++ peakHourSuggestion df ≠ [] := by
    intro heq
    have hmem : Suggestion.peakHour (peakHourOf df) ∈
        activitySuggestion df ++ delaySuggestion df ++
          conformanceSuggestion aligned ++ categorySuggestions df ++
          resourceSuggestion df ++ peakHourSuggestion df := by
      simp [peakHourSuggestion, List.mem_append]
    rw [heq] at hmem
    simp at hmem
  simp only [generate_sankhya_suggestions]
  rw [if_neg (by simp [h]), if_neg (by simp [peakHourSuggestion])]

theorem mem_firstOccurrences_aux (l acc : List String) (x : String) :
    x ∈ l.foldl (fun a y => if y ∈ a then a else a ++ [y]) acc ↔
      x ∈ acc ∨ x ∈ l := by
  induction l generalizing acc with
  | nil => simp
  | cons y ys ih =>
      simp only [List.foldl_cons]
      by_cases hy : y ∈ acc
      · rw [if_pos hy, ih]
        by_cases hxy : x = y
        · subst hxy; simp [hy]
        · simp [List.mem_cons, hxy]
      · rw [if_neg hy, ih]
        by_cases hxy : x = y
        · subst hxy; simp [List.mem_append]
        · simp [List.mem_append, List.mem_cons, hxy]

theorem mem_firstOccurrences (l : List String) (x : String) :
    x ∈ firstOccurrences l ↔ x ∈ l := by
  unfold firstOccurrences
  rw [mem_firstOccurrences_aux]
  simp

theorem mem_valueCounts (l : List String) (v : String) (k : Nat) :
    (v, k) ∈ valueCounts l ↔ v ∈ l ∧ k = l.count v := by
  unfold valueCounts
  rw [(List.perm_insertionSort _ _).mem_iff, List.mem_map]
  constructor
  · rintro ⟨w, hw, heq⟩
    rw [Prod.mk.injEq] at heq
    obtain ⟨hw1, hw2⟩ := heq
    subst hw1
    exact ⟨(mem_firstOccurrences l w).mp hw, hw2.symm⟩
  · rintro ⟨hv, hk⟩
    exact ⟨v, (mem_firstOccurrences l v).mpr hv, by rw [hk]⟩

theorem mem_activitySuggestion_shape (df : List ProcEvent) (s : Suggestion)
    (hs : s ∈ activitySuggestion df) :
    ∃ a k, s = Suggestion.mostFrequentActivity a k := by
  unfold activitySuggestion at hs
  cases hvc : valueCounts (df.map (fun e => e.concept_name)) with
  | nil => rw [hvc] at hs; simp at hs
  | cons p rest =>
      rw [hvc] at hs
      cases p with
      | mk a k =>
          simp at hs
          exact ⟨a, k, hs⟩

theorem mem_resourceSuggestion_shape (df : List ProcEvent) (s : Suggestion)
    (hs : s ∈ resourceSuggestion df) :
    ∃ a k, s = Suggestion.busiestResource a k := by
  unfold resourceSuggestion at hs
  cases hvc : valueCounts (df.map (fun e => e.org_resource)) with
  | nil => rw [hvc] at hs; simp at hs
  | cons p rest =>
      rw [hvc] at hs
      cases p with
      | mk a k =>
          simp at hs
          exact ⟨a, k, hs⟩

theorem mem_conformanceSuggestion_shape (aligned : List AlignedTrace)
    (s : Suggestion) (hs : s ∈ conformanceSuggestion aligned) :
    s = Suggestion.lowConformance (avgFitnessOf aligned) ∨
      s = Suggestion.highConformance (avgFitnessOf aligned) := by
  unfold conformanceSuggestion at hs
  split_ifs at hs with h1 h2 h3
  · simp at hs
  · simp at hs; exact Or.inl hs
  · simp at hs; exact Or.inr hs
  · simp at hs

theorem mem_categorySuggestions_shape (df : List ProcEvent) (s : Suggestion)
    (hs : s ∈ categorySuggestions df) :
    ∃ c q, s = Suggestion.categoryFocus c q := by
  unfold categorySuggestions at hs
  rw [List.mem_filterMap] at hs
  obtain ⟨ck, hmem, hck⟩ := hs
  by_cases hgt : (ck.2 : ℚ) > (df.length : ℚ) * (1/2)
  · rw [if_pos hgt, Option.some_inj] at hck
    exact ⟨ck.1, _, hck.symm⟩
  · rw [if_neg hgt] at hck
    simp at hck

theorem mem_delaySuggestion (df : List ProcEvent) (s : Suggestion) :
    s ∈ delaySuggestion df ↔
      avgDurationOf df > 3600 ∧ s = Suggestion.delay (avgDurationOf df) := by
  unfold delaySuggestion
  split_ifs with h1
  · simp [h1]
  · simp [h1]

theorem mem_low_conformanceSuggestion (aligned : List AlignedTrace) (q : ℚ) :
    Suggestion.lowConformance q ∈ conformanceSuggestion aligned ↔
      aligned ≠ [] ∧ avgFitnessOf aligned < 8/10 ∧ q = avgFitnessOf aligned := by
  unfold conformanceSuggestion
  split_ifs with h1 h2 h3
  · simp [List.isEmpty_iff.mp h1]
  · have hne : aligned ≠ [] := by
      intro hh
      rw [hh] at h1
      simp at h1
    simp [hne, h2]
  · have h2f : ¬ (avgFitnessOf aligned < 8/10) := h2
    simp [h2f]
  · simp [h2]

theorem mem_high_conformanceSuggestion (aligned : List AlignedTrace) (q : ℚ) :
    Suggestion.highConformance q ∈ conformanceSuggestion aligned ↔
      aligned ≠ [] ∧ avgFitnessOf aligned > 95/100 ∧ q = avgFitnessOf aligned := by
  unfold conformanceSuggestion
  split_ifs with h1 h2 h3
  · simp [List.isEmpty_iff.mp h1]
  · have hlt : ¬ (avgFitnessOf aligned > 95/100) := by
      intro hgt
      exact absurd (lt_trans h2 (by norm_num)) (not_lt.mpr (le_of_lt hgt))
    simp [hlt]
  · have hne : aligned ≠ [] := by
      intro hh
      rw [hh] at h1
      simp at h1
    simp [hne, h3]
  · simp [h3]

theorem mem_categorySuggestions_iff (df : List ProcEvent) (c : String) :
    (∃ q, Suggestion.categoryFocus c q ∈ categorySuggestions df) ↔
      c ∈ df.map (fun e => e.process_category) ∧
        ((df.map (fun e => e.process_category)).count c : ℚ) >
          (df.length : ℚ) * (1/2) := by
  unfold categorySuggestions
  constructor
  · rintro ⟨q, hq⟩
    rw [List.mem_filterMap] at hq
    obtain ⟨ck, hmem, hck⟩ := hq
    obtain ⟨cv, kk⟩ := ck
    by_cases hgt : ((kk : ℚ) > (df.length : ℚ) * (1/2))
    · rw [if_pos hgt, Option.some_inj] at hck
      injection hck with hck1 hck2
      subst hck1
      obtain ⟨hcv, hkk⟩ := (mem_valueCounts _ _ _).mp hmem
      rw [hkk] at hgt
      exact ⟨hcv, hgt⟩
    · rw [if_neg hgt] at hck
      simp at hck
  · rintro ⟨hc, hgt⟩
    refine ⟨((df.map (fun e => e.process_category)).count c : ℚ) / (df.length : ℚ), ?_⟩
    rw [List.mem_filterMap]
    refine ⟨(c, (df.map (fun e => e.process_category)).count c),
      (mem_valueCounts _ _ _).mpr ⟨hc, rfl⟩, ?_⟩
    rw [if_pos hgt]

theorem half_cast (k n : Nat) : (n : ℚ) * (1/2) < (k : ℚ) ↔ n < 2 * k := by
  rw [mul_one_div, div_lt_iff₀ (by norm_num : (0:ℚ) < 2)]
  norm_cast
  omega

/-- C7: `generate_sankhya_suggestions` always returns a non-empty list: the
single no-data message on an empty dataframe; otherwise the delay suggestion
appears exactly when the mean of `duration_seconds` exceeds 3600 seconds,
the low-conformance suggestion exactly when the aligned traces are non-empty
with average fitness below 0.8, the high-conformance suggestion exactly when
that average exceeds 0.95, and a category-focus suggestion for a process
category exactly when it covers more than half of the events; when no
suggestion at all fires the three fixed defaults are returned (the final
`if len(suggestions) == 0` branch of the code). -/
theorem generate_sankhya_suggestions_spec (df : List ProcEvent)
    (aligned : List AlignedTrace) :
    generate_sankhya_suggestions df aligned ≠ [] ∧
      (df = [] → generate_sankhya_suggestions df aligned = [Suggestion.noData]) ∧
      (df ≠ [] →
        (((∃ q, Suggestion.delay q ∈ generate_sankhya_suggestions df aligned) ↔
            avgDurationOf df > 3600) ∧
          ((∃ q, Suggestion.lowConformance q ∈
                generate_sankhya_suggestions df aligned) ↔
            aligned ≠ [] ∧ avgFitnessOf aligned < 8/10) ∧
          ((∃ q, Suggestion.highConformance q ∈
                generate_sankhya_suggestions df aligned) ↔
            aligned ≠ [] ∧ avgFitnessOf aligned > 95/100) ∧
          (∀ c, (∃ q, Suggestion.categoryFocus c q ∈
                generate_sankhya_suggestions df aligned) ↔
            c ∈ df.map (fun e => e.process_category) ∧
              df.length < 2 * (df.map (fun e => e.process_category)).count c))) := by
  by_cases hdf : df = []
  · subst hdf
    exact ⟨by simp [generate_sankhya_suggestions],
      fun _ => by simp [generate_sankhya_suggestions],
      fun hne => absurd rfl hne⟩
  · have hblocks := generate_eq_blocks df aligned hdf
    refine ⟨?_, fun heq => absurd heq hdf, fun _ => ⟨?_, ?_, ?_, ?_⟩⟩
    · rw [hblocks]
      intro heq
      have hmem : Suggestion.peakHour (peakHourOf df) ∈
          activitySuggestion df ++ delaySuggestion df ++
            conformanceSuggestion aligned ++ categorySuggestions df ++
            resourceSuggestion df ++ peakHourSuggestion df := by
        simp [peakHourSuggestion, List.mem_append]
      rw [heq] at hmem
      simp at hmem
    · rw [hblocks]
      constructor
      · rintro ⟨q, hq⟩
        simp only [List.mem_append] at hq
        rcases hq with ((((hq | hq) | hq) | hq) | hq) | hq
        · obtain ⟨a, k, habs⟩ := mem_activitySuggestion_shape df _ hq
          simp at habs
        · exact ((mem_delaySuggestion df _).mp hq).1
        · rcases mem_conformanceSuggestion_shape aligned _ hq with habs | habs <;>
            simp at habs
        · obtain ⟨cc, q2, habs⟩ := mem_categorySuggestions_shape df _ hq
          simp at habs
        · obtain ⟨a, k, habs⟩ := mem_resourceSuggestion_shape df _ hq
          simp at habs
        · simp [peakHourSuggestion] at hq
      · intro hgt
        refine ⟨avgDurationOf df, ?_⟩
        simp only [List.mem_append]
        exact Or.inl (Or.inl (Or.inl (Or.inl (Or.inr
          ((mem_delaySuggestion df _).mpr ⟨hgt, rfl⟩)))))
    · rw [hblocks]
      constructor
      · rintro ⟨q, hq⟩
        simp only [List.mem_append] at hq
        rcases hq with ((((hq | hq) | hq) | hq) | hq) | hq
        · obtain ⟨a, k, habs⟩ := mem_activitySuggestion_shape df _ hq
          simp at habs
        · have habs := ((mem_delaySuggestion df _).mp hq).2
          simp at habs
        · obtain ⟨hne, hlt, _⟩ := (mem_low_conformanceSuggestion aligned q).mp hq
          exact ⟨hne, hlt⟩
        · obtain ⟨cc, q2, habs⟩ := mem_categorySuggestions_shape df _ hq
          simp at habs
        · obtain ⟨a, k, habs⟩ := mem_resourceSuggestion_shape df _ hq
          simp at habs
        · simp [peakHourSuggestion] at hq
      · rintro ⟨hne, hlt⟩
        refine ⟨avgFitnessOf aligned, ?_⟩
        simp only [List.mem_append]
        exact Or.inl (Or.inl (Or.inl (Or.inr
          ((mem_low_conformanceSuggestion aligned _).mpr ⟨hne, hlt, rfl⟩))))
    · rw [hblocks]
      constructor
      · rintro ⟨q, hq⟩
        simp only [List.mem_append] at hq
        rcases hq with ((((hq | hq) | hq) | hq) | hq) | hq
        · obtain ⟨a, k, habs⟩ := mem_activitySuggestion_shape df _ hq
          simp at habs
        · have habs := ((mem_delaySuggestion df _).mp hq).2
          simp at habs
        · obtain ⟨hne, hgt, _⟩ := (mem_high_conformanceSuggestion aligned q).mp hq
          exact ⟨hne, hgt⟩
        · obtain ⟨cc, q2, habs⟩ := mem_categorySuggestions_shape df _ hq
          simp at habs
        · obtain ⟨a, k, habs⟩ := mem_resourceSuggestion_shape df _ hq
          simp at habs
        · simp [peakHourSuggestion] at hq
      · rintro ⟨hne, hgt⟩
        refine ⟨avgFitnessOf aligned, ?_⟩
        simp only [List.mem_append]
        exact Or.inl (Or.inl (Or.inl (Or.inr
          ((mem_high_conformanceSuggestion aligned _).mpr ⟨hne, hgt, rfl⟩))))
    · intro c
      rw [hblocks]
      constructor
      · rintro ⟨q, hq⟩
        simp only [List.mem_append] at hq
        rcases hq with ((((hq | hq) | hq) | hq) | hq) | hq
        · obtain ⟨a, k, habs⟩ := mem_activitySuggestion_shape df _ hq
          simp at habs
        · have habs := ((mem_delaySuggestion df _).mp hq).2
          simp at habs
        · rcases mem_conformanceSuggestion_shape aligned _ hq with habs | habs <;>
            simp at habs
        · obtain ⟨hc, hgt⟩ := (mem_categorySuggestions_iff df c).mp ⟨q, hq⟩
          exact ⟨hc, (half_cast _ _).mp hgt⟩
        · obtain ⟨a, k, habs⟩ := mem_resourceSuggestion_shape df _ hq
          simp at habs
        · simp [peakHourSuggestion] at hq
      · rintro ⟨hc, hlen⟩
        obtain ⟨q, hq⟩ := (mem_categorySuggestions_iff df c).mpr
          ⟨hc, (half_cast _ _).mpr hlen⟩
        refine ⟨q, ?_⟩
        simp only [List.mem_append]
        exact Or.inl (Or.inl (Or.inr hq))

def sampleProc1 : ProcEvent :=
  { case_concept_name := "A", concept_name := "inicio", time_timestamp := 250
    company_code := "1", partner_code := "7", seller_code := "3"
    order_value := 10, operation_type := "V", org_resource := "r1"
    estimated_duration_minutes := 5, process_category := "Vendas"
    duration_seconds := 0, activity_sequence := 1 }

def sampleProc2 : ProcEvent :=
  { sampleProc1 with
    concept_name := "fim"
    time_timestamp := 10000
    duration_seconds := 9750
    activity_sequence := 2 }

def sampleProcDf : List ProcEvent := [sampleProc1, sampleProc2]

theorem generate_sankhya_suggestions_spec_witness :
    generate_sankhya_suggestions sampleProcDf sampleAligned ≠ [] ∧
      ((∃ q, Suggestion.delay q ∈
          generate_sankhya_suggestions sampleProcDf sampleAligned) ↔
        avgDurationOf sampleProcDf > 3600) ∧
      ((∃ q, Suggestion.lowConformance q ∈
          generate_sankhya_suggestions sampleProcDf sampleAligned) ↔
        sampleAligned ≠ [] ∧ avgFitnessOf sampleAligned < 8/10) :=
  ⟨(generate_sankhya_suggestions_spec sampleProcDf sampleAligned).1,
    ((generate_sankhya_suggestions_spec sampleProcDf sampleAligned).2.2
        (by decide)).1,
    ((generate_sankhya_suggestions_spec sampleProcDf sampleAligned).2.2
        (by decide)).2.1⟩
